import Mathlib

/-!
Verification development for the Metropolis backend
(Express + TTL/LRU cache + request queue + dual-window rate limiter).

Each definition below is a shallow embedding of a function of the source,
with the source file and lines named in its doc comment.  Machine integers
(`Date.now()` millisecond timestamps, counters) are modelled as `Nat`;
JavaScript `Map`s keyed by strings are modelled as functions
`String -> Option _` or association lists; promises that can reject are
modelled with `Except`.
-/

/-- `User` record, `src/types.ts` (`part_002`): `id`, `name`, `email`,
optional hashed `password`, optional `createdAt`. -/
structure User where
  id : Nat
  name : String
  email : String
  password : Option String
  createdAt : Option String
deriving DecidableEq

/-! ## Rate limiter, `src/middleware/rateLimiter.ts` -/

/-- `RateLimitEntry` interface (rateLimiter.ts lines 3-8). -/
structure RateLimitEntry where
  count : Nat
  resetTime : Nat
  burstCount : Nat
  burstResetTime : Nat
deriving DecidableEq

/-- The `RATE_LIMIT` constants (rateLimiter.ts lines 10-15). -/
def RATE_LIMIT.maxRequests : Nat := 10

def RATE_LIMIT.windowMs : Nat := 60 * 1000

def RATE_LIMIT.burstMax : Nat := 5

def RATE_LIMIT.burstWindowMs : Nat := 10 * 1000

/-- The `rateLimitStore` map from client id (`req.ip`) to its entry,
modelled as a function map (rateLimiter.ts line 17). -/
def RLStore : Type := String → Option RateLimitEntry

/-- The empty `rateLimitStore`. -/
def emptyStore : RLStore := fun _ => none

/-- Writing one client's entry into the store (the aliased in-place
mutation of the stored object, or the `rateLimitStore.set` on creation). -/
def updateStore (s : RLStore) (c : String) (e : RateLimitEntry) : RLStore :=
  fun c' => if c' = c then some e else s c'

/-- Result of one pass through the middleware: `next()` was called, or a
429 was sent carrying `retryAfter` seconds. -/
inductive RLResult
  | admitted
  | rejected (retryAfter : Nat)
deriving DecidableEq

/-- The entry used by the middleware: the stored one, or the freshly
created zero entry for a first-time client (rateLimiter.ts lines 27-37). -/
def entryOrFresh (s : RLStore) (c : String) (now : Nat) : RateLimitEntry :=
  match s c with
  | some e => e
  | none =>
      { count := 0, resetTime := now + RATE_LIMIT.windowMs,
        burstCount := 0, burstResetTime := now + RATE_LIMIT.burstWindowMs }

/-- Lazy window resets (rateLimiter.ts lines 39-48): each counter is
zeroed and its reset time re-armed when `now` is strictly past it. -/
def applyResets (e : RateLimitEntry) (now : Nat) : RateLimitEntry :=
  let e1 :=
    if e.resetTime < now then
      { e with count := 0, resetTime := now + RATE_LIMIT.windowMs }
    else e
  if e1.burstResetTime < now then
    { e1 with burstCount := 0, burstResetTime := now + RATE_LIMIT.burstWindowMs }
  else e1

/-- One run of the `rateLimiter` middleware for client `c` at time `now`
(rateLimiter.ts lines 19-73): create-or-fetch the entry, apply lazy
resets, check the burst limit first, then the sustained limit, and on
admission increment both counters together.  `Math.ceil(x / 1000)` on the
non-negative remaining window is `(x + 999) / 1000` in `Nat`. -/
def rateLimiterStep (s : RLStore) (c : String) (now : Nat) : RLStore × RLResult :=
  let e2 := applyResets (entryOrFresh s c now) now
  if RATE_LIMIT.burstMax ≤ e2.burstCount then
    (updateStore s c e2, RLResult.rejected ((e2.burstResetTime - now + 999) / 1000))
  else if RATE_LIMIT.maxRequests ≤ e2.count then
    (updateStore s c e2, RLResult.rejected ((e2.resetTime - now + 999) / 1000))
  else
    (updateStore s c
      { e2 with count := e2.count + 1, burstCount := e2.burstCount + 1 },
     RLResult.admitted)

/-- A sequence of requests from one client at the given times
(each one run of the middleware, threading the store). -/
def runRequests (s : RLStore) (c : String) : List Nat → RLStore × List RLResult
  | [] => (s, [])
  | t :: ts =>
      let p := rateLimiterStep s c t
      let q := runRequests p.1 c ts
      (q.1, p.2 :: q.2)

/-- `cleanupRateLimitStore` (rateLimiter.ts lines 76-83): drop a client's
entry exactly when `now` is strictly past both reset times. -/
def cleanupRateLimitStore (s : RLStore) (now : Nat) : RLStore :=
  fun c =>
    match s c with
    | some e =>
        if e.resetTime < now ∧ e.burstResetTime < now then none else some e
    | none => none

/-- The `/auth` pipeline for one request: Express runs the global
`app.use(rateLimiter)` and then the mount `app.use('/auth', rateLimiter,
authRoutes)` for the same request (`part_005` lines 70-74 of the app
setup), so the middleware body executes twice at the same instant; the
second pass runs only when the first called `next()`. -/
def authRequest (s : RLStore) (c : String) (now : Nat) : RLStore × RLResult :=
  match rateLimiterStep s c now with
  | (s1, RLResult.admitted) => rateLimiterStep s1 c now
  | (s1, RLResult.rejected r) => (s1, RLResult.rejected r)

/-- A sequence of `/auth` requests from one client at the given times. -/
def runAuthRequests (s : RLStore) (c : String) : List Nat → RLStore × List RLResult
  | [] => (s, [])
  | t :: ts =>
      let p := authRequest s c t
      let q := runAuthRequests p.1 c ts
      (q.1, p.2 :: q.2)

/-! ## TTL/LRU cache, `src/config/cache.ts` (`part_001`) -/

/-- `CACHE_TTL` (cache.ts line 4): 60 seconds. -/
def CACHE_TTL : Nat := 60 * 1000

/-- `CacheEntry` (`src/types.ts`): the cached user plus the insertion
timestamp recorded by `CacheManager.set`. -/
structure CacheEntry where
  data : User
  timestamp : Nat
deriving DecidableEq

/-- One slot of the underlying `lru-cache`: key, `CacheEntry` value, and
the library's internal ttl start for the entry (reset on insert and -
because the cache is built with `updateAgeOnGet: true` - on every hit).
The list is ordered most recently used first; the least recently used
entry is last. -/
abbrev LruList : Type := List (String × CacheEntry × Nat)

def findKey (es : LruList) (k : String) : Option (String × CacheEntry × Nat) :=
  es.find? (fun p => p.1 == k)

def eraseKey (es : LruList) (k : String) : LruList :=
  es.filter (fun p => !(p.1 == k))

def keysOf (es : LruList) : List String := es.map (fun p => p.1)

/-- `CacheManager` state: the `lru-cache` contents plus the `stats`
object (cache.ts lines 6-12). -/
structure CMState where
  entries : LruList
  hits : Nat
  misses : Nat
  responseTimes : List Nat
deriving DecidableEq

/-- A fresh `CacheManager` (cache.ts lines 14-20). -/
def initCM : CMState := { entries := [], hits := 0, misses := 0, responseTimes := [] }

namespace CacheManager

/-- `get` (cache.ts lines 22-30) over the `lru-cache` configured with
`max: 1000, ttl: CACHE_TTL, updateAgeOnGet: true` (lines 15-19).  A
present entry whose age since its ttl start exceeds the ttl is stale:
the library deletes it and returns `undefined`, which `CacheManager`
counts as a miss.  A fresh entry is moved to most recently used, its ttl
clock restarts (`updateAgeOnGet`), and its `data` is returned as a hit. -/
def get (s : CMState) (k : String) (now : Nat) : Option User × CMState :=
  match findKey s.entries k with
  | some (_, e, start) =>
      if CACHE_TTL < now - start then
        (none, { s with entries := eraseKey s.entries k, misses := s.misses + 1 })
      else
        (some e.data,
         { s with entries := (k, e, now) :: eraseKey s.entries k, hits := s.hits + 1 })
  | none => (none, { s with misses := s.misses + 1 })

/-- `set` (cache.ts lines 32-38): store `{data, timestamp: Date.now()}`
under `k`; an existing key is replaced and moved to most recently used; a
new key with the cache at capacity (`max: 1000`) first evicts the least
recently used entry. -/
def set (s : CMState) (k : String) (u : User) (now : Nat) : CMState :=
  let e : CacheEntry := { data := u, timestamp := now }
  match findKey s.entries k with
  | some _ => { s with entries := (k, e, now) :: eraseKey s.entries k }
  | none =>
      if 1000 ≤ s.entries.length then
        { s with entries := (k, e, now) :: s.entries.dropLast }
      else
        { s with entries := (k, e, now) :: s.entries }

/-- `has` (cache.ts lines 40-42): fresh-presence check; no recency or
ttl update, no hit/miss accounting. -/
def has (s : CMState) (k : String) (now : Nat) : Bool :=
  match findKey s.entries k with
  | some (_, _, start) => decide (now - start ≤ CACHE_TTL)
  | none => false

/-- `clear` (cache.ts lines 44-49): drop all entries, reset the stats. -/
def clear (_s : CMState) : CMState := initCM

/-- `recordResponseTime` (cache.ts lines 67-73): push the sample, keep
only the last 1000. -/
def recordResponseTime (s : CMState) (t : Nat) : CMState :=
  let rs := s.responseTimes ++ [t]
  { s with responseTimes := if 1000 < rs.length then rs.tail else rs }

/-- `cleanStaleEntries` (cache.ts lines 76-83), the Reaper's cache sweep:
drop every entry whose age measured from its insertion
`CacheEntry.timestamp` exceeds `CACHE_TTL`.  Note this uses the
insertion timestamp, not the ttl start that `get` refreshes. -/
def cleanStaleEntries (s : CMState) (now : Nat) : CMState :=
  { s with entries := s.entries.filter (fun p => decide (now - p.2.1.timestamp ≤ CACHE_TTL)) }

end CacheManager

/-- The `CacheManager` operations, for stating invariants over every
reachable cache state. -/
inductive CacheOp
  | get (k : String) (now : Nat)
  | set (k : String) (u : User) (now : Nat)
  | clear
  | cleanStale (now : Nat)
  | record (t : Nat)

def applyOp (s : CMState) : CacheOp → CMState
  | CacheOp.get k now => (CacheManager.get s k now).2
  | CacheOp.set k u now => CacheManager.set s k u now
  | CacheOp.clear => CacheManager.clear s
  | CacheOp.cleanStale now => CacheManager.cleanStaleEntries s now
  | CacheOp.record t => CacheManager.recordResponseTime s t

def applyOps (ops : List CacheOp) (s : CMState) : CMState := ops.foldl applyOp s

/-! ## Backing store and users, `src/services/userService.ts` (`part_000`) -/

/-- The bcrypt digest of `password123` is an opaque string; a fixed
placeholder stands for it. -/
def hashedDefaultPassword : String := "bcrypt-digest-of-password123"

/-- Default user 1 (`part_000` lines 22-28). -/
def john : User :=
  { id := 1, name := "John Doe", email := "john@example.com",
    password := some hashedDefaultPassword, createdAt := some "2024-01-01T00:00:00.000Z" }

/-- Default user 2 (`part_000` lines 29-35). -/
def jane : User :=
  { id := 2, name := "Jane Smith", email := "jane@example.com",
    password := some hashedDefaultPassword, createdAt := some "2024-01-01T00:00:00.000Z" }

/-- Default user 3 (`part_000` lines 36-42). -/
def alice : User :=
  { id := 3, name := "Alice Johnson", email := "alice@example.com",
    password := some hashedDefaultPassword, createdAt := some "2024-01-01T00:00:00.000Z" }

/-- The backing store contents after initialization with the default
users (`part_000` lines 15-48), as a key-to-record map. -/
def defaultUsers : Nat → Option User := fun id =>
  if id = 1 then some john
  else if id = 2 then some jane
  else if id = 3 then some alice
  else none

/-- `UserResponse` (`src/types.ts`): the user without the password. -/
structure UserResponse where
  id : Nat
  name : String
  email : String
  createdAt : Option String
deriving DecidableEq

/-- `UserService.getUserResponse` (`part_000` lines 206-209): strip the
password. -/
def getUserResponse (u : User) : UserResponse :=
  { id := u.id, name := u.name, email := u.email, createdAt := u.createdAt }

/-- The JSON fields `res.json` writes for a full `User` object, in
object insertion order; optional fields appear only when present. -/
def renderUser (u : User) : List (String × String) :=
  [("id", Nat.repr u.id), ("name", u.name), ("email", u.email)] ++
    (match u.password with
     | some p => [("password", p)]
     | none => []) ++
    (match u.createdAt with
     | some d => [("createdAt", d)]
     | none => [])

/-- The JSON fields `res.json` writes for a `UserResponse`. -/
def renderUserResponse (r : UserResponse) : List (String × String) :=
  [("id", Nat.repr r.id), ("name", r.name), ("email", r.email)] ++
    (match r.createdAt with
     | some d => [("createdAt", d)]
     | none => [])

/-- A GET /users/:id response body. -/
inductive RouteBody
  | json (fields : List (String × String))
  | notFound
deriving DecidableEq

def jsonFields : RouteBody → List (String × String)
  | RouteBody.json fs => fs
  | RouteBody.notFound => []

/-- The cache key for a user id (users.ts line 36). -/
def cacheKeyOf (id : Nat) : String := "user:" ++ Nat.repr id

/-- The fetch-and-cache tail of GET /users/:id (users.ts lines 58-76):
fetch through the queue; 404 when the fetch yields null; otherwise cache
the full user object and respond with `getUserResponse(user)`. -/
def routeFetch (c : CMState) (users : Nat → Option User) (id : Nat) (key : String)
    (now : Nat) : RouteBody × CMState :=
  match users id with
  | none => (RouteBody.notFound, c)
  | some u =>
      (RouteBody.json (renderUserResponse (getUserResponse u)),
       CacheManager.set c key u now)

/-- GET /users/:id (users.ts lines 25-86, success paths): check the
cache - a hit responds with the cached full `User` object
(`res.json(cachedUser)`); on a miss, if `has` still reports the key,
wait 50 ms and retry the cache, falling through to the fetch when the
retry also misses; otherwise fetch, cache and respond via
`getUserResponse`. -/
def getUserRoute (cache : CMState) (users : Nat → Option User) (id : Nat)
    (now : Nat) : RouteBody × CMState :=
  let key := cacheKeyOf id
  match CacheManager.get cache key now with
  | (some u, c1) => (RouteBody.json (renderUser u), c1)
  | (none, c1) =>
      if CacheManager.has c1 key now then
        match CacheManager.get c1 key (now + 50) with
        | (some u, c2) => (RouteBody.json (renderUser u), c2)
        | (none, c2) => routeFetch c2 users id key (now + 50)
      else routeFetch c1 users id key now

/-! ## Single-flight fetch and request queue, `part_000` and `part_003` -/

/-- The outcome with which the shared fetch promise of
`UserService.getUserById` settles (`part_000` lines 117-127): after the
simulated latency it resolves with the user, or rejects with
`Error('User not found')`. -/
def fetchPromiseOutcome (users : Nat → Option User) (id : Nat) : Except String User :=
  match users id with
  | some u => Except.ok u
  | none => Except.error "User not found"

/-- What the caller that starts the fetch observes (`part_000` lines
131-135): it awaits the promise inside try/catch and converts a
rejection to `null`. -/
def leaderObservation (users : Nat → Option User) (id : Nat) :
    Except String (Option User) :=
  match fetchPromiseOutcome users id with
  | Except.ok u => Except.ok (some u)
  | Except.error _ => Except.ok none

/-- What a caller that joins an in-flight fetch observes (`part_000`
lines 113-115): it returns the stored pending promise directly, with no
catch, so its caller sees the promise's settlement as is. -/
def joinerObservation (users : Nat → Option User) (id : Nat) :
    Except String (Option User) :=
  match fetchPromiseOutcome users id with
  | Except.ok u => Except.ok (some u)
  | Except.error e => Except.error e

/-- One `getUserById` call as run by the queue (`part_000` lines
110-136): an id already in `pendingRequests` joins the stored promise
(no new backing-store call); otherwise the call registers the id, makes
the backing-store call, and the completion callback deletes the
registration before the awaiting continuation resumes, so afterwards the
pending set is as before.  Returns (observed outcome, pending set after
completion, whether a backing-store call was made). -/
def getUserByIdSeq (users : Nat → Option User) (pending : List Nat) (id : Nat) :
    Except String (Option User) × List Nat × Bool :=
  if id ∈ pending then
    (joinerObservation users id, pending, false)
  else
    (leaderObservation users id, (id :: pending).erase id, true)

/-- `RequestQueue.processQueue`'s drain (`part_003` lines 26-48): the
queued requests are processed strictly one at a time, in order, each one
awaited to completion before the next is shifted; the pending set is
threaded through.  Returns the outcomes delivered to the queued callers
and the total number of backing-store calls. -/
def processAll (users : Nat → Option User) :
    List Nat → List Nat → List (Except String (Option User)) × Nat
  | [], _ => ([], 0)
  | id :: rest, pending =>
      let step := getUserByIdSeq users pending id
      let next := processAll users rest step.2.1
      (step.1 :: next.1, next.2 + (if step.2.2 then 1 else 0))

/-! ## Queue serialization state machine, `part_003` with `part_000` -/

/-- Where the single `processQueue` drain loop stands (`part_003` lines
26-48): no iteration running, a request just shifted, awaiting the fetch
of a key, or the fetch settled and the caller is being resolved. -/
inductive Phase
  | idle
  | picked (k : Nat)
  | waiting (k : Nat)
  | finished (k : Nat)
deriving DecidableEq

/-- Observable state of the queue and the user service: the queued user
ids, the `processing` flag, the phase of the drain loop, the keys of the
backing-store calls in flight, and the `pendingRequests` keys. -/
structure QState where
  queue : List Nat
  processing : Bool
  phase : Phase
  inflight : List Nat
  pending : List Nat
deriving DecidableEq

/-- The event-loop steps of the system; each constructor is one atomic
block of JavaScript (code with no await inside):
`enqueue` (`part_003` lines 19-24) pushes the request and runs
`processQueue`, which returns at once when already processing and
otherwise sets `processing` and starts draining; `pick` (lines 33-35)
shifts the next request; `loopExit` (lines 33, 47) finds the queue empty
and clears `processing`; `startJoin` (`part_000` lines 113-115) finds
the id in `pendingRequests` and returns the stored promise;
`startFetch` (`part_000` lines 117-129) creates the fetch promise - the
backing-store call starts - and registers it; `complete` (`part_000`
lines 118-126) settles the promise and deletes the registration in the
same callback; `finishIteration` (`part_003` lines 36-44) resumes the
awaited iteration and resolves the queued caller. -/
inductive QStep : QState → QState → Prop
  | enqueue (s : QState) (k : Nat) :
      QStep s { s with queue := s.queue ++ [k], processing := true }
  | pick (s : QState) (k : Nat) (rest : List Nat) (h1 : s.phase = Phase.idle)
      (h2 : s.processing = true) (h3 : s.queue = k :: rest) :
      QStep s { s with queue := rest, phase := Phase.picked k }
  | loopExit (s : QState) (h1 : s.phase = Phase.idle) (h2 : s.processing = true)
      (h3 : s.queue = []) :
      QStep s { s with processing := false }
  | startJoin (s : QState) (k : Nat) (h1 : s.phase = Phase.picked k)
      (h2 : k ∈ s.pending) :
      QStep s { s with phase := Phase.waiting k }
  | startFetch (s : QState) (k : Nat) (h1 : s.phase = Phase.picked k)
      (h2 : k ∉ s.pending) :
      QStep s { s with phase := Phase.waiting k, inflight := k :: s.inflight,
                       pending := k :: s.pending }
  | complete (s : QState) (k : Nat) (h1 : s.phase = Phase.waiting k) :
      QStep s { s with phase := Phase.finished k, inflight := s.inflight.erase k,
                       pending := s.pending.erase k }
  | finishIteration (s : QState) (k : Nat) (h1 : s.phase = Phase.finished k) :
      QStep s { s with phase := Phase.idle }

/-- The initial state: nothing queued, nothing pending, not processing. -/
def initQ : QState :=
  { queue := [], processing := false, phase := Phase.idle, inflight := [], pending := [] }

/-- States reachable from `initQ` by event-loop steps. -/
def QReachable (s : QState) : Prop := Relation.ReflTransGen QStep initQ s

/-- Invariant tying the single drain loop to the in-flight calls. -/
def QInv (s : QState) : Prop :=
  s.pending = s.inflight ∧
  (∀ k, s.phase = Phase.waiting k → s.inflight = [] ∨ s.inflight = [k]) ∧
  ((∃ k, s.phase = Phase.waiting k) ∨ s.inflight = [])

deriving instance DecidableEq for Except

/-! ## Proofs -/

@[simp] theorem updateStore_self (s : RLStore) (c : String) (e : RateLimitEntry) :
    updateStore s c e c = some e := by
  simp [updateStore]

theorem updateStore_other (s : RLStore) (c b : String) (e : RateLimitEntry)
    (h : b ≠ c) : updateStore s c e b = s b := by
  simp [updateStore, h]

/-- C7: a request that is admitted increments the sustained and burst
counters together; a rejected request leaves the client's entry exactly
as it was after the lazy window resets. -/
theorem c7_atomic_counter_update (s : RLStore) (c : String) (now : Nat) :
    ((rateLimiterStep s c now).2 = RLResult.admitted →
      (rateLimiterStep s c now).1 c =
        some { applyResets (entryOrFresh s c now) now with
                 count := (applyResets (entryOrFresh s c now) now).count + 1,
                 burstCount := (applyResets (entryOrFresh s c now) now).burstCount + 1 }) ∧
    (∀ r, (rateLimiterStep s c now).2 = RLResult.rejected r →
      (rateLimiterStep s c now).1 c =
        some (applyResets (entryOrFresh s c now) now)) := by
  unfold rateLimiterStep
  by_cases h1 : RATE_LIMIT.burstMax ≤ (applyResets (entryOrFresh s c now) now).burstCount
  · simp [h1]
  · by_cases h2 : RATE_LIMIT.maxRequests ≤ (applyResets (entryOrFresh s c now) now).count
    · simp [h1, h2]
    · simp [h1, h2]

/-- Witness for C7: a first request of client `"a"` at time 0 is
admitted, and both counters land at 1. -/
theorem c7_atomic_counter_update_witness :
    (rateLimiterStep emptyStore "a" 0).2 = RLResult.admitted ∧
    (rateLimiterStep emptyStore "a" 0).1 "a" =
      some { applyResets (entryOrFresh emptyStore "a" 0) 0 with
               count := (applyResets (entryOrFresh emptyStore "a" 0) 0).count + 1,
               burstCount := (applyResets (entryOrFresh emptyStore "a" 0) 0).burstCount + 1 } :=
  ⟨by decide, (c7_atomic_counter_update emptyStore "a" 0).1 (by decide)⟩

/-- C9: the Reaper's rate-limit sweep removes a present client's window
state iff both the sustained and the burst reset times are strictly in
the past at sweep time. -/
theorem c9_cleanup_iff_both_expired (s : RLStore) (c : String) (now : Nat)
    (e : RateLimitEntry) (h : s c = some e) :
    cleanupRateLimitStore s now c = none ↔
      (e.resetTime < now ∧ e.burstResetTime < now) := by
  simp only [cleanupRateLimitStore, h]
  by_cases hb : e.resetTime < now ∧ e.burstResetTime < now
  · simp [hb]
  · simp [hb]

/-- Witness for C9: a client whose windows both expired is removed by the
sweep. -/
theorem c9_cleanup_iff_both_expired_witness :
    updateStore emptyStore "a" ⟨3, 10, 2, 5⟩ "a" = some ⟨3, 10, 2, 5⟩ ∧
    (cleanupRateLimitStore (updateStore emptyStore "a" ⟨3, 10, 2, 5⟩) 11 "a" = none ↔
      ((3 : Nat) < 11 ∧ (5 : Nat) < 11)) := by
  refine ⟨by decide, ?_⟩
  have h := c9_cleanup_iff_both_expired (updateStore emptyStore "a" ⟨3, 10, 2, 5⟩)
    "a" 11 ⟨3, 10, 2, 5⟩ (by decide)
  simpa using h

/-- A middleware pass for a first-time client: the fresh entry passes
both checks and both counters are incremented to 1. -/
theorem step_first_of (s : RLStore) (c : String) (now : Nat) (h : s c = none) :
    rateLimiterStep s c now =
      (updateStore s c
        { count := 1, resetTime := now + RATE_LIMIT.windowMs,
          burstCount := 1, burstResetTime := now + RATE_LIMIT.burstWindowMs },
       RLResult.admitted) := by
  have h1 : ¬ now + RATE_LIMIT.windowMs < now := by omega
  have h2 : ¬ now + RATE_LIMIT.burstWindowMs < now := by omega
  have h3 : ¬ RATE_LIMIT.burstMax ≤ 0 := by decide
  have h4 : ¬ RATE_LIMIT.maxRequests ≤ 0 := by decide
  unfold rateLimiterStep entryOrFresh applyResets
  rw [h]
  simp only [if_neg h1, if_neg h2, if_neg h3, if_neg h4]

/-- A middleware pass with an in-window stored entry below both limits:
admitted, both counters incremented, reset times untouched. -/
theorem step_admit_of (s : RLStore) (c : String) (now : Nat) (e : RateLimitEntry)
    (hf : s c = some e) (h1 : now ≤ e.resetTime) (h2 : now ≤ e.burstResetTime)
    (h3 : e.burstCount < RATE_LIMIT.burstMax) (h4 : e.count < RATE_LIMIT.maxRequests) :
    rateLimiterStep s c now =
      (updateStore s c { e with count := e.count + 1, burstCount := e.burstCount + 1 },
       RLResult.admitted) := by
  have h1' : ¬ e.resetTime < now := by omega
  have h2' : ¬ e.burstResetTime < now := by omega
  have h3' : ¬ RATE_LIMIT.burstMax ≤ e.burstCount := by omega
  have h4' : ¬ RATE_LIMIT.maxRequests ≤ e.count := by omega
  unfold rateLimiterStep entryOrFresh applyResets
  rw [hf]
  simp only [if_neg h1', if_neg h2', if_neg h3', if_neg h4']

/-- A middleware pass with an in-window stored entry whose burst counter
is full: rejected by the burst check, entry left as is. -/
theorem step_reject_burst_of (s : RLStore) (c : String) (now : Nat) (e : RateLimitEntry)
    (hf : s c = some e) (h1 : now ≤ e.resetTime) (h2 : now ≤ e.burstResetTime)
    (h3 : RATE_LIMIT.burstMax ≤ e.burstCount) :
    rateLimiterStep s c now =
      (updateStore s c e,
       RLResult.rejected ((e.burstResetTime - now + 999) / 1000)) := by
  have h1' : ¬ e.resetTime < now := by omega
  have h2' : ¬ e.burstResetTime < now := by omega
  unfold rateLimiterStep entryOrFresh applyResets
  rw [hf]
  simp only [if_neg h1', if_neg h2', if_pos h3]

/-- A middleware pass after the burst window lapsed but inside the
sustained window, with the sustained counter below its limit: the burst
window is lazily re-armed and the request is admitted. -/
theorem step_admit_burstreset_of (s : RLStore) (c : String) (now : Nat)
    (e : RateLimitEntry) (hf : s c = some e) (h1 : now ≤ e.resetTime)
    (h2 : e.burstResetTime < now) (h4 : e.count < RATE_LIMIT.maxRequests) :
    rateLimiterStep s c now =
      (updateStore s c
        { e with count := e.count + 1, burstCount := 1,
                 burstResetTime := now + RATE_LIMIT.burstWindowMs },
       RLResult.admitted) := by
  have h1' : ¬ e.resetTime < now := by omega
  have h3' : ¬ RATE_LIMIT.burstMax ≤ 0 := by decide
  have h4' : ¬ RATE_LIMIT.maxRequests ≤ e.count := by omega
  unfold rateLimiterStep entryOrFresh applyResets
  rw [hf]
  simp only [if_neg h1', if_pos h2, if_neg h3', if_neg h4']

/-- A middleware pass after the burst window lapsed, inside the sustained
window, with the sustained counter full: the burst window is lazily
re-armed, then the sustained check rejects. -/
theorem step_reject_sustained_of (s : RLStore) (c : String) (now : Nat)
    (e : RateLimitEntry) (hf : s c = some e) (h1 : now ≤ e.resetTime)
    (h2 : e.burstResetTime < now) (h4 : RATE_LIMIT.maxRequests ≤ e.count) :
    rateLimiterStep s c now =
      (updateStore s c
        { e with burstCount := 0, burstResetTime := now + RATE_LIMIT.burstWindowMs },
       RLResult.rejected ((e.resetTime - now + 999) / 1000)) := by
  have h1' : ¬ e.resetTime < now := by omega
  have h3' : ¬ RATE_LIMIT.burstMax ≤ 0 := by decide
  unfold rateLimiterStep entryOrFresh applyResets
  rw [hf]
  simp only [if_neg h1', if_pos h2, if_neg h3', if_pos h4]

theorem runRequests_append (s : RLStore) (c : String) (ts us : List Nat) :
    runRequests s c (ts ++ us) =
      ((runRequests (runRequests s c ts).1 c us).1,
       (runRequests s c ts).2 ++ (runRequests (runRequests s c ts).1 c us).2) := by
  induction ts generalizing s with
  | nil => simp [runRequests]
  | cons t ts ih => simp [runRequests, ih]

/-- A run of requests from one client, all inside both of the entry's
current windows and with enough room in both counters, is admitted
throughout and advances both counters by the number of requests. -/
theorem run_admits (c : String) (s : RLStore) (cnt R bct B : Nat) (ts : List Nat)
    (hf : s c = some ⟨cnt, R, bct, B⟩)
    (hts : ∀ t ∈ ts, t ≤ R ∧ t ≤ B)
    (hb : bct + ts.length ≤ RATE_LIMIT.burstMax)
    (hc : cnt + ts.length ≤ RATE_LIMIT.maxRequests) :
    (runRequests s c ts).2 = List.replicate ts.length RLResult.admitted ∧
    (runRequests s c ts).1 c = some ⟨cnt + ts.length, R, bct + ts.length, B⟩ := by
  induction ts generalizing s cnt bct with
  | nil => simpa [runRequests] using hf
  | cons t rest ih =>
    simp only [List.length_cons] at hb hc
    have hstep := step_admit_of s c t ⟨cnt, R, bct, B⟩ hf
      (hts t (by simp)).1 (hts t (by simp)).2
      (show bct < RATE_LIMIT.burstMax by omega)
      (show cnt < RATE_LIMIT.maxRequests by omega)
    have hf' : updateStore s c ⟨cnt + 1, R, bct + 1, B⟩ c =
        some ⟨cnt + 1, R, bct + 1, B⟩ := updateStore_self _ _ _
    obtain ⟨ihr, ihs⟩ := ih (updateStore s c ⟨cnt + 1, R, bct + 1, B⟩) (cnt + 1) (bct + 1)
      hf' (fun t' ht' => hts t' (by simp [ht'])) (by omega) (by omega)
    constructor
    · simp only [runRequests, hstep]
      simp [ihr, List.replicate_succ]
    · simp only [runRequests, hstep, List.length_cons]
      rw [show cnt + (rest.length + 1) = cnt + 1 + rest.length by omega,
          show bct + (rest.length + 1) = bct + 1 + rest.length by omega]
      exact ihs

theorem rateLimiterStep_store_shape (s : RLStore) (a : String) (m : Nat) :
    ∃ e, (rateLimiterStep s a m).1 = updateStore s a e := by
  unfold rateLimiterStep
  by_cases h1 : RATE_LIMIT.burstMax ≤ (applyResets (entryOrFresh s a m) m).burstCount
  · simp only [if_pos h1]
    exact ⟨_, rfl⟩
  · by_cases h2 : RATE_LIMIT.maxRequests ≤ (applyResets (entryOrFresh s a m) m).count
    · simp only [if_neg h1, if_pos h2]
      exact ⟨_, rfl⟩
    · simp only [if_neg h1, if_neg h2]
      exact ⟨_, rfl⟩

theorem run_append_results (s : RLStore) (c : String) (ts us : List Nat) :
    (runRequests s c (ts ++ us)).2 =
      (runRequests s c ts).2 ++ (runRequests (runRequests s c ts).1 c us).2 := by
  rw [runRequests_append]

theorem runRequests_singleton_snd (s : RLStore) (c : String) (t : Nat) :
    (runRequests s c [t]).2 = [(rateLimiterStep s c t).2] := rfl

theorem runRequests_singleton_fst (s : RLStore) (c : String) (t : Nat) :
    (runRequests s c [t]).1 = (rateLimiterStep s c t).1 := rfl

/-- C6: from no window state, 5 requests of a client inside one burst
window are all admitted and a 6th inside that window is rejected with a
positive `retryAfter`; 10 requests inside one sustained window, grouped
so that no burst window sees more than 5, are all admitted and an 11th
is rejected with a positive `retryAfter`; and a request of one client
never changes the stored window state of a distinct client. -/
theorem c6_dual_window_admission (c : String)
    (t0 t1 t2 t3 t4 t5 u0 u1 u2 u3 u4 u5 u6 u7 u8 u9 u10 : Nat)
    (ha1 : t0 ≤ t1) (ha2 : t1 ≤ t2) (ha3 : t2 ≤ t3) (ha4 : t3 ≤ t4) (ha5 : t4 ≤ t5)
    (ha6 : t5 < t0 + RATE_LIMIT.burstWindowMs)
    (hb1 : u0 ≤ u1) (hb2 : u1 ≤ u2) (hb3 : u2 ≤ u3) (hb4 : u3 ≤ u4)
    (hb5 : u4 < u0 + RATE_LIMIT.burstWindowMs)
    (hb6 : u0 + RATE_LIMIT.burstWindowMs < u5)
    (hb7 : u5 ≤ u6) (hb8 : u6 ≤ u7) (hb9 : u7 ≤ u8) (hb10 : u8 ≤ u9)
    (hb11 : u9 < u5 + RATE_LIMIT.burstWindowMs)
    (hb12 : u5 + RATE_LIMIT.burstWindowMs < u10)
    (hb13 : u10 < u0 + RATE_LIMIT.windowMs) :
    ((runRequests emptyStore c [t0, t1, t2, t3, t4, t5]).2 =
        List.replicate 5 RLResult.admitted ++
          [RLResult.rejected ((t0 + RATE_LIMIT.burstWindowMs - t5 + 999) / 1000)] ∧
      0 < (t0 + RATE_LIMIT.burstWindowMs - t5 + 999) / 1000) ∧
    ((runRequests emptyStore c [u0, u1, u2, u3, u4, u5, u6, u7, u8, u9, u10]).2 =
        List.replicate 10 RLResult.admitted ++
          [RLResult.rejected ((u0 + RATE_LIMIT.windowMs - u10 + 999) / 1000)] ∧
      0 < (u0 + RATE_LIMIT.windowMs - u10 + 999) / 1000) ∧
    (∀ (s : RLStore) (a b : String) (m : Nat), b ≠ a →
      (rateLimiterStep s a m).1 b = s b) := by
  have hW : RATE_LIMIT.windowMs = 60000 := rfl
  have hB : RATE_LIMIT.burstWindowMs = 10000 := rfl
  refine ⟨⟨?_, by omega⟩, ⟨?_, by omega⟩, ?_⟩
  · -- burst-window run
    have q1 := step_first_of emptyStore c t0 rfl
    have F1 : ((runRequests emptyStore c [t0]).1) c =
        some ⟨1, t0 + RATE_LIMIT.windowMs, 1, t0 + RATE_LIMIT.burstWindowMs⟩ := by
      rw [runRequests_singleton_fst, q1]
      exact updateStore_self _ _ _
    obtain ⟨r2, s2⟩ := run_admits c ((runRequests emptyStore c [t0]).1) 1
      (t0 + RATE_LIMIT.windowMs) 1 (t0 + RATE_LIMIT.burstWindowMs) [t1, t2, t3, t4] F1
      (by intro x hx; fin_cases hx <;> exact ⟨by omega, by omega⟩)
      (by simp [RATE_LIMIT.burstMax]) (by simp [RATE_LIMIT.maxRequests])
    have q6 := step_reject_burst_of
      ((runRequests ((runRequests emptyStore c [t0]).1) c [t1, t2, t3, t4]).1) c t5
      ⟨5, t0 + RATE_LIMIT.windowMs, 5, t0 + RATE_LIMIT.burstWindowMs⟩ s2
      (show t5 ≤ t0 + RATE_LIMIT.windowMs by omega)
      (show t5 ≤ t0 + RATE_LIMIT.burstWindowMs by omega)
      (show RATE_LIMIT.burstMax ≤ 5 by decide)
    rw [show ([t0, t1, t2, t3, t4, t5] : List Nat) = [t0] ++ ([t1, t2, t3, t4] ++ [t5])
        from rfl]
    rw [run_append_results, run_append_results, r2, runRequests_singleton_snd,
        runRequests_singleton_snd, q1, q6]
    rfl
  · -- sustained-window run
    have q1 := step_first_of emptyStore c u0 rfl
    have F1 : ((runRequests emptyStore c [u0]).1) c =
        some ⟨1, u0 + RATE_LIMIT.windowMs, 1, u0 + RATE_LIMIT.burstWindowMs⟩ := by
      rw [runRequests_singleton_fst, q1]
      exact updateStore_self _ _ _
    obtain ⟨r2, s2⟩ := run_admits c ((runRequests emptyStore c [u0]).1) 1
      (u0 + RATE_LIMIT.windowMs) 1 (u0 + RATE_LIMIT.burstWindowMs) [u1, u2, u3, u4] F1
      (by intro x hx; fin_cases hx <;> exact ⟨by omega, by omega⟩)
      (by simp [RATE_LIMIT.burstMax]) (by simp [RATE_LIMIT.maxRequests])
    have q6 := step_admit_burstreset_of
      ((runRequests ((runRequests emptyStore c [u0]).1) c [u1, u2, u3, u4]).1) c u5
      ⟨5, u0 + RATE_LIMIT.windowMs, 5, u0 + RATE_LIMIT.burstWindowMs⟩ s2
      (show u5 ≤ u0 + RATE_LIMIT.windowMs by omega)
      (show u0 + RATE_LIMIT.burstWindowMs < u5 by omega)
      (show (5 : Nat) < RATE_LIMIT.maxRequests by decide)
    have F3 : ((runRequests
        ((runRequests ((runRequests emptyStore c [u0]).1) c [u1, u2, u3, u4]).1) c [u5]).1) c =
        some ⟨6, u0 + RATE_LIMIT.windowMs, 1, u5 + RATE_LIMIT.burstWindowMs⟩ := by
      rw [runRequests_singleton_fst, q6]
      exact updateStore_self _ _ _
    obtain ⟨r7, s7⟩ := run_admits c
      ((runRequests
        ((runRequests ((runRequests emptyStore c [u0]).1) c [u1, u2, u3, u4]).1) c [u5]).1) 6
      (u0 + RATE_LIMIT.windowMs) 1 (u5 + RATE_LIMIT.burstWindowMs) [u6, u7, u8, u9] F3
      (by intro x hx; fin_cases hx <;> exact ⟨by omega, by omega⟩)
      (by simp [RATE_LIMIT.burstMax]) (by simp [RATE_LIMIT.maxRequests])
    have q11 := step_reject_sustained_of
      ((runRequests ((runRequests
        ((runRequests ((runRequests emptyStore c [u0]).1) c [u1, u2, u3, u4]).1) c [u5]).1)
          c [u6, u7, u8, u9]).1) c u10
      ⟨10, u0 + RATE_LIMIT.windowMs, 5, u5 + RATE_LIMIT.burstWindowMs⟩ s7
      (show u10 ≤ u0 + RATE_LIMIT.windowMs by omega)
      (show u5 + RATE_LIMIT.burstWindowMs < u10 by omega)
      (show RATE_LIMIT.maxRequests ≤ 10 by decide)
    rw [show ([u0, u1, u2, u3, u4, u5, u6, u7, u8, u9, u10] : List Nat) =
        [u0] ++ ([u1, u2, u3, u4] ++ ([u5] ++ ([u6, u7, u8, u9] ++ [u10]))) from rfl]
    rw [run_append_results, run_append_results, run_append_results, run_append_results,
        r2, r7, runRequests_singleton_snd, runRequests_singleton_snd,
        runRequests_singleton_snd, q1, q6, q11]
    rfl
  · intro s a b m hne
    obtain ⟨e, he⟩ := rateLimiterStep_store_shape s a m
    rw [he]
    exact updateStore_other s a b e hne

/-- Witness for C6 at concrete times: burst schedule 0..5, sustained
schedule 0..4, 10001..10005, 20002, client `"w"`. -/
theorem c6_dual_window_admission_witness :
    ((runRequests emptyStore "w" [0, 1, 2, 3, 4, 5]).2 =
        List.replicate 5 RLResult.admitted ++
          [RLResult.rejected ((0 + RATE_LIMIT.burstWindowMs - 5 + 999) / 1000)] ∧
      0 < (0 + RATE_LIMIT.burstWindowMs - 5 + 999) / 1000) ∧
    ((runRequests emptyStore "w"
        [0, 1, 2, 3, 4, 10001, 10002, 10003, 10004, 10005, 20002]).2 =
        List.replicate 10 RLResult.admitted ++
          [RLResult.rejected ((0 + RATE_LIMIT.windowMs - 20002 + 999) / 1000)] ∧
      0 < (0 + RATE_LIMIT.windowMs - 20002 + 999) / 1000) ∧
    (∀ (s : RLStore) (a b : String) (m : Nat), b ≠ a →
      (rateLimiterStep s a m).1 b = s b) :=
  c6_dual_window_admission "w" 0 1 2 3 4 5 0 1 2 3 4 10001 10002 10003 10004 10005 20002
    (by decide) (by decide) (by decide) (by decide) (by decide) (by decide)
    (by decide) (by decide) (by decide) (by decide) (by decide) (by decide)
    (by decide) (by decide) (by decide) (by decide) (by decide) (by decide)
    (by decide)

theorem applyResets_now_le (e : RateLimitEntry) (now : Nat) :
    now ≤ (applyResets e now).resetTime ∧ now ≤ (applyResets e now).burstResetTime := by
  unfold applyResets
  by_cases h1 : e.resetTime < now
  · simp only [if_pos h1]
    by_cases h2 : e.burstResetTime < now
    · simp only [if_pos h2]
      exact ⟨show now ≤ now + RATE_LIMIT.windowMs by omega,
             show now ≤ now + RATE_LIMIT.burstWindowMs by omega⟩
    · simp only [if_neg h2]
      exact ⟨show now ≤ now + RATE_LIMIT.windowMs by omega,
             show now ≤ e.burstResetTime by omega⟩
  · simp only [if_neg h1]
    by_cases h2 : e.burstResetTime < now
    · simp only [if_pos h2]
      exact ⟨show now ≤ e.resetTime by omega,
             show now ≤ now + RATE_LIMIT.burstWindowMs by omega⟩
    · simp only [if_neg h2]
      exact ⟨show now ≤ e.resetTime by omega, show now ≤ e.burstResetTime by omega⟩

/-- A middleware pass with an in-window stored entry, burst counter below
its limit but sustained counter full: rejected by the sustained check. -/
theorem step_reject_sustained_inwindow_of (s : RLStore) (c : String) (now : Nat)
    (e : RateLimitEntry) (hf : s c = some e) (h1 : now ≤ e.resetTime)
    (h2 : now ≤ e.burstResetTime) (h3 : e.burstCount < RATE_LIMIT.burstMax)
    (h4 : RATE_LIMIT.maxRequests ≤ e.count) :
    rateLimiterStep s c now =
      (updateStore s c e,
       RLResult.rejected ((e.resetTime - now + 999) / 1000)) := by
  have h1' : ¬ e.resetTime < now := by omega
  have h2' : ¬ e.burstResetTime < now := by omega
  have h3' : ¬ RATE_LIMIT.burstMax ≤ e.burstCount := by omega
  unfold rateLimiterStep entryOrFresh applyResets
  rw [hf]
  simp only [if_neg h1', if_neg h2', if_neg h3', if_pos h4]

/-- C10: an `/auth` request passes the rate limiter twice, so a request
that is admitted (reaches the route handler) increments both of the
client's window counters by 2; consequently, from a fresh store inside
one burst window, only 2 auth requests are admitted before a rejection,
while 3 plain requests are all admitted. -/
theorem c10_auth_double_rate_limit (s : RLStore) (c : String) (now : Nat) :
    ((authRequest s c now).2 = RLResult.admitted →
      (authRequest s c now).1 c =
        some { applyResets (entryOrFresh s c now) now with
                 count := (applyResets (entryOrFresh s c now) now).count + 2,
                 burstCount := (applyResets (entryOrFresh s c now) now).burstCount + 2 }) ∧
    ((runAuthRequests emptyStore "a" [0, 1, 2]).2 =
        [RLResult.admitted, RLResult.admitted, RLResult.rejected 10] ∧
      (runRequests emptyStore "a" [0, 1, 2]).2 =
        [RLResult.admitted, RLResult.admitted, RLResult.admitted]) := by
  refine ⟨?_, by decide, by decide⟩
  intro h
  have hle := applyResets_now_le (entryOrFresh s c now) now
  by_cases h1 : RATE_LIMIT.burstMax ≤ (applyResets (entryOrFresh s c now) now).burstCount
  · have hfst : rateLimiterStep s c now =
        (updateStore s c (applyResets (entryOrFresh s c now) now),
         RLResult.rejected
           (((applyResets (entryOrFresh s c now) now).burstResetTime - now + 999) / 1000)) := by
      unfold rateLimiterStep
      rw [if_pos h1]
    unfold authRequest at h
    rw [hfst] at h
    simp at h
  · by_cases h2 : RATE_LIMIT.maxRequests ≤ (applyResets (entryOrFresh s c now) now).count
    · have hfst : rateLimiterStep s c now =
          (updateStore s c (applyResets (entryOrFresh s c now) now),
           RLResult.rejected
             (((applyResets (entryOrFresh s c now) now).resetTime - now + 999) / 1000)) := by
        unfold rateLimiterStep
        rw [if_neg h1, if_pos h2]
      unfold authRequest at h
      rw [hfst] at h
      simp at h
    · -- first pass admitted
      have hfst : rateLimiterStep s c now =
          (updateStore s c
            { applyResets (entryOrFresh s c now) now with
                count := (applyResets (entryOrFresh s c now) now).count + 1,
                burstCount := (applyResets (entryOrFresh s c now) now).burstCount + 1 },
           RLResult.admitted) := by
        unfold rateLimiterStep
        rw [if_neg h1, if_neg h2]
      have hauth : authRequest s c now =
          rateLimiterStep
            (updateStore s c
              { applyResets (entryOrFresh s c now) now with
                  count := (applyResets (entryOrFresh s c now) now).count + 1,
                  burstCount := (applyResets (entryOrFresh s c now) now).burstCount + 1 })
            c now := by
        unfold authRequest
        rw [hfst]
      by_cases h3 : RATE_LIMIT.burstMax ≤ (applyResets (entryOrFresh s c now) now).burstCount + 1
      · have hsec := step_reject_burst_of (updateStore s c
            { applyResets (entryOrFresh s c now) now with
                count := (applyResets (entryOrFresh s c now) now).count + 1,
                burstCount := (applyResets (entryOrFresh s c now) now).burstCount + 1 }) c now
          { applyResets (entryOrFresh s c now) now with
              count := (applyResets (entryOrFresh s c now) now).count + 1,
              burstCount := (applyResets (entryOrFresh s c now) now).burstCount + 1 }
          (updateStore_self _ _ _)
          (show now ≤ (applyResets (entryOrFresh s c now) now).resetTime from hle.1)
          (show now ≤ (applyResets (entryOrFresh s c now) now).burstResetTime from hle.2)
          (show RATE_LIMIT.burstMax ≤ (applyResets (entryOrFresh s c now) now).burstCount + 1
            from h3)
        rw [hauth, hsec] at h
        simp at h
      · by_cases h4 : RATE_LIMIT.maxRequests ≤ (applyResets (entryOrFresh s c now) now).count + 1
        · have hsec := step_reject_sustained_inwindow_of (updateStore s c
            { applyResets (entryOrFresh s c now) now with
                count := (applyResets (entryOrFresh s c now) now).count + 1,
                burstCount := (applyResets (entryOrFresh s c now) now).burstCount + 1 }) c now
            { applyResets (entryOrFresh s c now) now with
                count := (applyResets (entryOrFresh s c now) now).count + 1,
                burstCount := (applyResets (entryOrFresh s c now) now).burstCount + 1 }
            (updateStore_self _ _ _)
            (show now ≤ (applyResets (entryOrFresh s c now) now).resetTime from hle.1)
            (show now ≤ (applyResets (entryOrFresh s c now) now).burstResetTime from hle.2)
            (show (applyResets (entryOrFresh s c now) now).burstCount + 1 < RATE_LIMIT.burstMax
              by omega)
            (show RATE_LIMIT.maxRequests ≤ (applyResets (entryOrFresh s c now) now).count + 1
              from h4)
          rw [hauth, hsec] at h
          simp at h
        · have hsec := step_admit_of (updateStore s c
            { applyResets (entryOrFresh s c now) now with
                count := (applyResets (entryOrFresh s c now) now).count + 1,
                burstCount := (applyResets (entryOrFresh s c now) now).burstCount + 1 }) c now
            { applyResets (entryOrFresh s c now) now with
                count := (applyResets (entryOrFresh s c now) now).count + 1,
                burstCount := (applyResets (entryOrFresh s c now) now).burstCount + 1 }
            (updateStore_self _ _ _)
            (show now ≤ (applyResets (entryOrFresh s c now) now).resetTime from hle.1)
            (show now ≤ (applyResets (entryOrFresh s c now) now).burstResetTime from hle.2)
            (show (applyResets (entryOrFresh s c now) now).burstCount + 1 < RATE_LIMIT.burstMax
              by omega)
            (show (applyResets (entryOrFresh s c now) now).count + 1 < RATE_LIMIT.maxRequests
              by omega)
          rw [hauth, hsec]
          exact updateStore_self _ _ _

/-- Witness for C10: a fresh client's auth request at time 0 is admitted
and lands with both counters at 2. -/
theorem c10_auth_double_rate_limit_witness :
    (authRequest emptyStore "a" 0).2 = RLResult.admitted ∧
    (authRequest emptyStore "a" 0).1 "a" =
      some { applyResets (entryOrFresh emptyStore "a" 0) 0 with
               count := (applyResets (entryOrFresh emptyStore "a" 0) 0).count + 2,
               burstCount := (applyResets (entryOrFresh emptyStore "a" 0) 0).burstCount + 2 } :=
  ⟨by decide, (c10_auth_double_rate_limit emptyStore "a" 0).1 (by decide)⟩

theorem mem_keys_of_findKey_some {es : LruList} {k : String}
    {p : String × CacheEntry × Nat} (h : findKey es k = some p) : k ∈ keysOf es := by
  have h0 : es.find? (fun q => q.1 == k) = some p := h
  have h1 : (p.1 == k) = true := by
    have := List.find?_some h0
    simpa using this
  have h2 : p ∈ es := List.mem_of_find?_eq_some h0
  have h3 : p.1 = k := by simpa using h1
  rw [← h3]
  exact List.mem_map.mpr ⟨p, h2, rfl⟩

theorem findKey_eq_none_of_not_mem {es : LruList} {k : String}
    (h : k ∉ keysOf es) : findKey es k = none := by
  show es.find? (fun q => q.1 == k) = none
  apply List.find?_eq_none.mpr
  intro p hp hbeq
  apply h
  have h3 : p.1 = k := by simpa using hbeq
  rw [← h3]
  exact List.mem_map.mpr ⟨p, hp, rfl⟩

theorem eraseKey_length_lt {es : LruList} {k : String} (h : k ∈ keysOf es) :
    (eraseKey es k).length < es.length := by
  induction es with
  | nil => simp [keysOf] at h
  | cons p rest ih =>
    by_cases hpk : p.1 = k
    · have hcons : eraseKey (p :: rest) k = eraseKey rest k := by
        simp [eraseKey, List.filter_cons, hpk]
      rw [hcons]
      have hle : (eraseKey rest k).length ≤ rest.length := List.length_filter_le _ _
      simp only [List.length_cons]
      omega
    · have hcons : eraseKey (p :: rest) k = p :: eraseKey rest k := by
        simp [eraseKey, List.filter_cons, hpk]
      have hmem : k ∈ keysOf rest := by
        simp only [keysOf, List.map_cons, List.mem_cons] at h
        rcases h with h | h
        · exact absurd h.symm hpk
        · simpa [keysOf] using h
      rw [hcons]
      simp only [List.length_cons]
      have := ih hmem
      omega

theorem applyOp_length_le (s : CMState) (op : CacheOp)
    (h : s.entries.length ≤ 1000) : (applyOp s op).entries.length ≤ 1000 := by
  cases op with
  | get k now =>
    simp only [applyOp, CacheManager.get]
    cases hf : findKey s.entries k with
    | none => simpa using h
    | some p =>
      obtain ⟨k', e, start⟩ := p
      by_cases hst : CACHE_TTL < now - start
      · simp only [if_pos hst]
        exact le_trans (List.length_filter_le _ _) h
      · simp only [if_neg hst]
        have hlt := eraseKey_length_lt (mem_keys_of_findKey_some hf)
        simp only [List.length_cons]
        omega
  | set k u now =>
    simp only [applyOp, CacheManager.set]
    cases hf : findKey s.entries k with
    | some p =>
      have hlt := eraseKey_length_lt (mem_keys_of_findKey_some hf)
      simp only [List.length_cons]
      omega
    | none =>
      by_cases hcap : 1000 ≤ s.entries.length
      · simp only [if_pos hcap, List.length_cons, List.length_dropLast]
        omega
      · simp only [if_neg hcap, List.length_cons]
        omega
  | clear => simp [applyOp, CacheManager.clear, initCM]
  | cleanStale now =>
    simp only [applyOp, CacheManager.cleanStaleEntries]
    exact le_trans (List.length_filter_le _ _) h
  | record t => simpa [applyOp, CacheManager.recordResponseTime] using h

/-- C8: starting from the empty cache, every sequence of `CacheManager`
operations leaves at most 1000 entries; and a `set` of a new key with the
cache exactly at capacity evicts exactly the least recently used entry
(the last of the recency list), keeping the new entry and all others. -/
theorem c8_capacity_bound_and_lru_eviction (ops : List CacheOp) (s : CMState)
    (k : String) (u : User) (now : Nat)
    (h1 : s.entries.length = 1000) (h2 : k ∉ keysOf s.entries) :
    (applyOps ops initCM).entries.length ≤ 1000 ∧
    (CacheManager.set s k u now).entries =
      (k, { data := u, timestamp := now }, now) :: s.entries.dropLast := by
  constructor
  · have hgen : ∀ (l : List CacheOp) (st : CMState), st.entries.length ≤ 1000 →
        (applyOps l st).entries.length ≤ 1000 := by
      intro l
      induction l with
      | nil => intro st h; exact h
      | cons op rest ih =>
        intro st h
        exact ih _ (applyOp_length_le st op h)
    exact hgen ops initCM (by simp [initCM])
  · have hf : findKey s.entries k = none := findKey_eq_none_of_not_mem h2
    simp only [CacheManager.set, hf]
    rw [if_pos (by omega)]

/-- A cache state with exactly 1000 distinct keys, all least recently
used order irrelevant, used to exercise the eviction branch. -/
def bigEntries : LruList :=
  (List.range 1000).map (fun i => ("k" ++ Nat.repr i, { data := john, timestamp := 0 }, 0))

def bigState : CMState :=
  { entries := bigEntries, hits := 0, misses := 0, responseTimes := [] }

/-- Witness for C8: `bigState` is at capacity, the key `""` is new, and
setting it evicts exactly the last entry. -/
theorem c8_capacity_bound_and_lru_eviction_witness :
    bigState.entries.length = 1000 ∧ "" ∉ keysOf bigState.entries ∧
    ((applyOps [] initCM).entries.length ≤ 1000 ∧
      (CacheManager.set bigState "" john 5).entries =
        ("", { data := john, timestamp := 5 }, 5) :: bigState.entries.dropLast) := by
  have h1 : bigState.entries.length = 1000 := by
    simp [bigState, bigEntries]
  have h2 : "" ∉ keysOf bigState.entries := by
    simp only [bigState, bigEntries, keysOf, List.map_map, List.mem_map, List.mem_range,
      Function.comp]
    rintro ⟨i, -, hi⟩
    have hlen := congrArg String.length hi
    rw [String.length_append] at hlen
    have hk : String.length "k" = 1 := rfl
    have he : String.length "" = 0 := rfl
    omega
  exact ⟨h1, h2, c8_capacity_bound_and_lru_eviction [] bigState "" john 5 h1 h2⟩

/-- C1 (amended): a value returned by `CacheManager.get` is at most
`CACHE_TTL` old measured from the entry's last refresh (its insertion or
its most recent previous hit), and the hit refreshes both the recency
order and the ttl clock - because the cache is built with
`updateAgeOnGet: true`, a hit does extend the absolute expiry, and the
age measured from the insertion `timestamp` can exceed `CACHE_TTL`. -/
theorem c1_ttl_measured_from_last_refresh (s : CMState) (k : String) (now : Nat)
    (u : User) (h : (CacheManager.get s k now).1 = some u) :
    ∃ e start, findKey s.entries k = some (k, e, start) ∧ e.data = u ∧
      now - start ≤ CACHE_TTL ∧
      (CacheManager.get s k now).2.entries = (k, e, now) :: eraseKey s.entries k := by
  cases hf : findKey s.entries k with
  | none =>
    have hnone : (CacheManager.get s k now).1 = none := by
      unfold CacheManager.get
      simp only [hf]
    rw [hnone] at h
    exact absurd h (by simp)
  | some p =>
    obtain ⟨k', e, start⟩ := p
    have hk : k' = k := by
      have h0 : s.entries.find? (fun q => q.1 == k) = some (k', e, start) := hf
      have := List.find?_some h0
      simpa using this
    rw [hk] at hf
    by_cases hst : CACHE_TTL < now - start
    · have hnone : (CacheManager.get s k now).1 = none := by
        unfold CacheManager.get
        simp only [hf, if_pos hst]
      rw [hnone] at h
      exact absurd h (by simp)
    · have hget : CacheManager.get s k now =
          (some e.data,
           { s with entries := (k, e, now) :: eraseKey s.entries k,
                    hits := s.hits + 1 }) := by
        unfold CacheManager.get
        simp only [hf, if_neg hst]
      rw [hget] at h
      have hdata : e.data = u := by simpa using h
      refine ⟨e, start, by rw [hk], hdata, by omega, ?_⟩
      rw [hget]

/-- Witness for C1 (amended): a hit 10 ms after insertion. -/
theorem c1_ttl_measured_from_last_refresh_witness :
    (CacheManager.get (CacheManager.set initCM "u" john 0) "u" 10).1 = some john ∧
    (∃ e start,
      findKey (CacheManager.set initCM "u" john 0).entries "u" = some ("u", e, start) ∧
      e.data = john ∧ 10 - start ≤ CACHE_TTL ∧
      (CacheManager.get (CacheManager.set initCM "u" john 0) "u" 10).2.entries =
        ("u", e, 10) :: eraseKey (CacheManager.set initCM "u" john 0).entries "u") :=
  ⟨by decide, c1_ttl_measured_from_last_refresh (CacheManager.set initCM "u" john 0)
    "u" 10 john (by decide)⟩

/-- C1 counterexample: the claim that a returned value is at most
`CACHE_TTL` old measured from its insertion time, and that a hit does not
extend the absolute expiry, fails.  Insert `"u"` at 0; the Reaper sweeps
at 30000 and 60000 (its 30 s cadence) without removing it; a hit at
50000 restarts the ttl clock (`updateAgeOnGet: true`), recorded in the
entry's ttl start changing from 0 to 50000; `get` at 89999 then still
returns the value although 89999 - 0 exceeds `CACHE_TTL`. -/
theorem c1_counterexample :
    (CacheManager.get
        (CacheManager.cleanStaleEntries
          ((CacheManager.get
              (CacheManager.cleanStaleEntries (CacheManager.set initCM "u" john 0) 30000)
              "u" 50000).2)
          60000)
        "u" 89999).1 = some john ∧
    findKey
        (CacheManager.cleanStaleEntries
          ((CacheManager.get
              (CacheManager.cleanStaleEntries (CacheManager.set initCM "u" john 0) 30000)
              "u" 50000).2)
          60000).entries "u" =
      some ("u", { data := john, timestamp := 0 }, 50000) ∧
    CACHE_TTL < 89999 - 0 := by
  exact ⟨by decide, by decide, by decide⟩

/-- C2 (code bug): GET /users/1 twice within TTL.  The miss response is
`getUserResponse(user)` and omits the password, but the hit response is
the cached full `User` object and carries the password hash, so the two
response bodies are not byte-identical; the hits counter does increase
across the two lookups. -/
theorem c2_cache_hit_response_not_identical :
    (getUserRoute initCM defaultUsers 1 0).1 =
      RouteBody.json (renderUserResponse (getUserResponse john)) ∧
    (getUserRoute (getUserRoute initCM defaultUsers 1 0).2 defaultUsers 1 1).1 =
      RouteBody.json (renderUser john) ∧
    (getUserRoute initCM defaultUsers 1 0).1 ≠
      (getUserRoute (getUserRoute initCM defaultUsers 1 0).2 defaultUsers 1 1).1 ∧
    ("password", hashedDefaultPassword) ∈
      jsonFields (getUserRoute (getUserRoute initCM defaultUsers 1 0).2 defaultUsers 1 1).1 ∧
    ("password", hashedDefaultPassword) ∉
      jsonFields (getUserRoute initCM defaultUsers 1 0).1 ∧
    (getUserRoute initCM defaultUsers 1 0).2.hits = 0 ∧
    (getUserRoute (getUserRoute initCM defaultUsers 1 0).2 defaultUsers 1 1).2.hits = 1 := by
  refine ⟨by decide, by decide, by decide, by decide, by decide, by decide, by decide⟩

/-- C3 counterexample: for a key absent in the backing store, a caller
that joined the pending promise observes the rejection, not null - the
attached callers do not all observe the same null outcome. -/
theorem c3_counterexample :
    joinerObservation defaultUsers 999 = Except.error "User not found" ∧
    leaderObservation defaultUsers 999 = Except.ok none ∧
    joinerObservation defaultUsers 999 ≠ leaderObservation defaultUsers 999 := by
  refine ⟨by decide, by decide, by decide⟩

/-- C3 (amended): when the backing store reports not-found, the leader
observes null (its try/catch converts the rejection), but a joiner of
the shared pending promise observes the thrown `Error('User not found')`
rather than null; the pending registration is gone after completion, and
no negative result is cached - the route leaves the key absent, so a
later call starts a fresh fetch. -/
theorem c3_notfound_outcomes (users : Nat → Option User) (id : Nat)
    (pend : List Nat) (cache : CMState) (now : Nat)
    (h : users id = none) (hp : id ∉ pend)
    (hk : findKey cache.entries (cacheKeyOf id) = none) :
    leaderObservation users id = Except.ok none ∧
    joinerObservation users id = Except.error "User not found" ∧
    (getUserByIdSeq users pend id).2.1 = pend ∧
    (getUserByIdSeq users pend id).2.2 = true ∧
    findKey (getUserRoute cache users id now).2.entries (cacheKeyOf id) = none := by
  have hfetch : fetchPromiseOutcome users id = Except.error "User not found" := by
    unfold fetchPromiseOutcome
    rw [h]
  have hlead : leaderObservation users id = Except.ok none := by
    unfold leaderObservation
    rw [hfetch]
  have hjoin : joinerObservation users id = Except.error "User not found" := by
    unfold joinerObservation
    rw [hfetch]
  have hseq : getUserByIdSeq users pend id =
      (leaderObservation users id, (id :: pend).erase id, true) := by
    unfold getUserByIdSeq
    rw [if_neg hp]
  have hmiss : CacheManager.get cache (cacheKeyOf id) now =
      (none, { cache with misses := cache.misses + 1 }) := by
    unfold CacheManager.get
    simp only [hk]
  have hhas : CacheManager.has { cache with misses := cache.misses + 1 }
      (cacheKeyOf id) now = false := by
    unfold CacheManager.has
    simp only [hk]
  have hroute : getUserRoute cache users id now =
      (RouteBody.notFound, { cache with misses := cache.misses + 1 }) := by
    simp only [getUserRoute, hmiss, hhas, Bool.false_eq_true, if_false, routeFetch, h]
  refine ⟨hlead, hjoin, ?_, ?_, ?_⟩
  · rw [hseq]
    exact List.erase_cons_head id pend
  · rw [hseq]
  · rw [hroute]
    exact hk

/-- Witness for C3 (amended): user id 999 is absent from the default
backing store; leader sees null, joiner sees the error, nothing is
cached. -/
theorem c3_notfound_outcomes_witness :
    defaultUsers 999 = none ∧ (999 ∉ ([] : List Nat)) ∧
    findKey initCM.entries (cacheKeyOf 999) = none ∧
    (leaderObservation defaultUsers 999 = Except.ok none ∧
      joinerObservation defaultUsers 999 = Except.error "User not found" ∧
      (getUserByIdSeq defaultUsers [] 999).2.1 = [] ∧
      (getUserByIdSeq defaultUsers [] 999).2.2 = true ∧
      findKey (getUserRoute initCM defaultUsers 999 0).2.entries (cacheKeyOf 999) = none) :=
  ⟨by decide, by decide, by decide,
   c3_notfound_outcomes defaultUsers 999 [] initCM 0 (by decide) (by decide) (by decide)⟩

/-- C4 (code bug scenario, evaluated): 5 simultaneous lookups of user 2
against an empty cache all enqueue; the queue then drains them strictly
one at a time, and because the pending registration is deleted before
the next queued request runs, every one of the 5 requests performs its
own backing-store call - 5 calls, not 1 - while all 5 callers do receive
identical results. -/
theorem c4_five_concurrent_lookups_five_calls :
    (processAll defaultUsers (List.replicate 5 2) []).2 = 5 ∧
    (processAll defaultUsers (List.replicate 5 2) []).2 ≠ 1 ∧
    (processAll defaultUsers (List.replicate 5 2) []).1 =
      List.replicate 5 (Except.ok (some jane)) := by
  refine ⟨by decide, by decide, by decide⟩

theorem qinv_init : QInv initQ := by
  refine ⟨rfl, ?_, Or.inr rfl⟩
  intro k h
  simp [initQ] at h

theorem qinv_step {s s' : QState} (hs : QInv s) (h : QStep s s') : QInv s' := by
  obtain ⟨hpe, hwait, hall⟩ := hs
  cases h with
  | enqueue k => exact ⟨hpe, hwait, hall⟩
  | pick k rest h1 h2 h3 =>
    refine ⟨hpe, ?_, Or.inr ?_⟩
    · intro k' hk'
      exact absurd hk' (by simp)
    · rcases hall with ⟨k', hk'⟩ | hnil
      · rw [h1] at hk'
        exact absurd hk' (by simp)
      · exact hnil
  | loopExit h1 h2 h3 => exact ⟨hpe, hwait, hall⟩
  | startJoin k h1 h2 =>
    rcases hall with ⟨k', hk'⟩ | hnil
    · rw [h1] at hk'
      exact absurd hk' (by simp)
    · rw [hpe, hnil] at h2
      exact absurd h2 (by simp)
  | startFetch k h1 h2 =>
    have hnil : s.inflight = [] := by
      rcases hall with ⟨k', hk'⟩ | hnil
      · rw [h1] at hk'
        exact absurd hk' (by simp)
      · exact hnil
    refine ⟨?_, ?_, Or.inl ⟨k, rfl⟩⟩
    · show k :: s.pending = k :: s.inflight
      rw [hpe]
    · intro k' hk'
      have hkk : k = k' := by
        have : Phase.waiting k = Phase.waiting k' := hk'
        injection this
      right
      show k :: s.inflight = [k']
      rw [hnil, hkk]
  | complete k h1 =>
    refine ⟨?_, ?_, Or.inr ?_⟩
    · show s.pending.erase k = s.inflight.erase k
      rw [hpe]
    · intro k' hk'
      exact absurd hk' (by simp)
    · rcases hwait k h1 with hnil | hone
      · show s.inflight.erase k = []
        rw [hnil]
        rfl
      · show s.inflight.erase k = []
        rw [hone]
        exact List.erase_cons_head k []
  | finishIteration k h1 =>
    refine ⟨hpe, ?_, Or.inr ?_⟩
    · intro k' hk'
      exact absurd hk' (by simp)
    · rcases hall with ⟨k', hk'⟩ | hnil
      · rw [h1] at hk'
        exact absurd hk' (by simp)
      · exact hnil

theorem qinv_reachable {s : QState} (h : QReachable s) : QInv s := by
  induction h with
  | refl => exact qinv_init
  | tail hab hbc ih => exact qinv_step ih hbc

/-- C5: in every reachable interleaving of enqueues, queue drain steps
and fetch completions, at most one backing-store call is in flight at
any instant at all - so for every key, no two backing-store calls for
that key are ever concurrently in flight. -/
theorem c5_no_concurrent_duplicate_fetch (s : QState) (h : QReachable s) (k : Nat) :
    s.inflight.count k ≤ 1 := by
  obtain ⟨-, hwait, hall⟩ := qinv_reachable h
  rcases hall with ⟨k', hk'⟩ | hnil
  · rcases hwait k' hk' with hnil | hone
    · rw [hnil]
      simp
    · rw [hone]
      exact le_trans (List.count_le_length _ _) (by simp)
  · rw [hnil]
    simp

/-- Witness for C5: the state after enqueue, pick and fetch start is
reachable and has one call for key 2 in flight. -/
theorem c5_no_concurrent_duplicate_fetch_witness :
    QReachable { queue := [], processing := true, phase := Phase.waiting 2,
                 inflight := [2], pending := [2] } ∧
    (([2] : List Nat).count 2 ≤ 1) := by
  have h1 : QStep initQ
      ⟨[2], true, Phase.idle, [], []⟩ := QStep.enqueue initQ 2
  have h2 : QStep (⟨[2], true, Phase.idle, [], []⟩ : QState)
      ⟨[], true, Phase.picked 2, [], []⟩ :=
    QStep.pick _ 2 [] rfl rfl rfl
  have h3 : QStep (⟨[], true, Phase.picked 2, [], []⟩ : QState)
      ⟨[], true, Phase.waiting 2, [2], [2]⟩ :=
    QStep.startFetch _ 2 rfl (by simp)
  have hr : QReachable ⟨[], true, Phase.waiting 2, [2], [2]⟩ :=
    Relation.ReflTransGen.tail (Relation.ReflTransGen.tail
      (Relation.ReflTransGen.tail Relation.ReflTransGen.refl h1) h2) h3
  exact ⟨hr, c5_no_concurrent_duplicate_fetch _ hr 2⟩
